import Mathlib

set_option maxRecDepth 8192

/-!
Verification development for the augmentation pipeline of `grants_tagger_light`
(`grants_tagger_light/augmentation/augment.py` and
`grants_tagger_light/augmentation/augment_openai.py`).

Python dicts are embedded as association lists with unique keys in insertion
order; `dictGet` is `d[k]` (first matching key wins, matching Python's unique
keys), `dictSet` is `d[k] = v` (updates the existing entry in place, otherwise
appends at the end, matching Python insertion-order semantics).
-/

/-- Python `element in dict` / `dict[key]` lookup over an association list. -/
def dictGet (d : List (String × Nat)) (k : String) : Option Nat :=
  match d with
  | [] => none
  | (k1, v) :: rest => if k1 = k then some v else dictGet rest k

/-- Python `dict[key] = value`: replace the first entry holding `key`, else append. -/
def dictSet (d : List (String × Nat)) (k : String) (v : Nat) : List (String × Nat) :=
  match d with
  | [] => [(k, v)]
  | (k1, v1) :: rest => if k1 = k then (k1, v) :: rest else (k1, v1) :: dictSet rest k v

/-- Loop body of `_count_elements_in_sublist` (augment.py lines 20-27):
`if element in element_count: element_count[element] += 1 else: element_count[element] = 1`. -/
def countStep (element_count : List (String × Nat)) (element : String) : List (String × Nat) :=
  match dictGet element_count element with
  | some c => dictSet element_count element (c + 1)
  | none => dictSet element_count element 1

/-- Embedding of `_count_elements_in_sublist(sublist)` from augment.py: per-shard label counting. -/
def countElementsInSublist (sublist : List String) : List (String × Nat) :=
  sublist.foldl countStep []

/-- Inner loop body of `_merge_dicts` (augment.py lines 30-38):
`if key in merged_dict: merged_dict[key] += value else: merged_dict[key] = value`. -/
def mergeStep (merged_dict : List (String × Nat)) (kv : String × Nat) : List (String × Nat) :=
  match dictGet merged_dict kv.1 with
  | some c => dictSet merged_dict kv.1 (c + kv.2)
  | none => dictSet merged_dict kv.1 kv.2

/-- Embedding of `_merge_dicts(dict_list)` from augment.py: merge shard counts by per-key summation. -/
def mergeDicts (dict_list : List (List (String × Nat))) : List (String × Nat) :=
  dict_list.foldl (fun merged d => d.foldl mergeStep merged) []

/-- Value a frequency table associates to a label (0 when absent), i.e. the
reading of the table as a label-to-count mapping. -/
def getCount (d : List (String × Nat)) (k : String) : Nat :=
  (dictGet d k).getD 0

/-- Sum of the values that entries with key `k` hold in an association list
(an auxiliary quantity for reasoning about `mergeStep`). -/
def entrySum (d : List (String × Nat)) (k : String) : Nat :=
  match d with
  | [] => 0
  | kv :: rest => (if kv.1 = k then kv.2 else 0) + entrySum rest k

/-- Number of occurrences of `k` in a list of labels. -/
def countOcc (k : String) (l : List String) : Nat :=
  match l with
  | [] => 0
  | x :: xs => (if x = k then 1 else 0) + countOcc k xs


/-!
Driver-side plan construction (`augment` in augment.py), applied after the
corpus has been year-filtered: the per-record `meshMajor` lists are counted
and merged, the merged table is sorted by count in descending order (Python
`sorted(..., key=lambda x: x[1], reverse=True)`, a stable sort), labels with
count < `min_examples` are kept, and the batching loop feeding `_generate`
runs over them.
-/

/-- A value in the first slot of a `collect_concurrent_calls` tuple. The
downstream consumer `_make_requests` reads a label string from that slot;
the driver actually appends the integer count, so both shapes are
representable. -/
inductive PlanItem where
  | pyStr (s : String)
  | pyInt (n : Nat)
deriving DecidableEq

/-- Stable insertion by descending count: a later element with an equal count
stays after earlier ones, matching Python `sorted(..., reverse=True)`. -/
def insertDescByCount (x : String × Nat) : List (String × Nat) → List (String × Nat)
  | [] => [x]
  | y :: ys => if x.2 ≤ y.2 then y :: insertDescByCount x ys else x :: y :: ys

/-- Embedding of `sorted(merged_element_counts.items(), key=lambda x: x[1], reverse=True)`. -/
def sortedByCountDesc (l : List (String × Nat)) : List (String × Nat) :=
  l.foldl (fun acc x => insertDescByCount x acc) []

/-- The list `tags_to_augment` paired with their counts, in the order the driver
iterates (the merged dict has unique keys, so iterating the keys and looking
each count up is the same as iterating the filtered key/count pairs). -/
def tagsToAugment (counts : List (String × Nat)) (min_examples : Nat) : List (String × Nat) :=
  (sortedByCountDesc counts).filter (fun kv => kv.2 < min_examples)

/-- Outcome of the batching loop at the end of `augment` (augment.py lines
125-132). `handedToGenerate batch` records that `_generate` was invoked with
`batch`; that invocation raises `TypeError` (see `pyCallRaisesTypeError`),
which propagates and aborts the run, so the loop never continues past it. -/
inductive PlanOutcome where
  | finished (collect : List (PlanItem × Nat))
  | handedToGenerate (batch : List (PlanItem × Nat))
deriving DecidableEq

/-- The loop `for t in tags_to_augment:` (augment.py lines 125-132). Once the
buffer holds at least `concurrent_calls` entries, `_generate` is invoked (and
the buffer is never cleared, nor is the current tag appended); otherwise the
entry `(tags_to_augment_counts[t], missing)` is appended — note the first
component is the count `tags_to_augment_counts[t]`, not the label `t`. -/
def planLoop (concurrent_calls min_examples : Nat) :
    List (String × Nat) → List (PlanItem × Nat) → PlanOutcome
  | [], collect => PlanOutcome.finished collect
  | (_t, cnt) :: rest, collect =>
    if concurrent_calls ≤ collect.length then
      PlanOutcome.handedToGenerate collect
    else if cnt < min_examples then
      planLoop concurrent_calls min_examples rest
        (collect ++ [(PlanItem.pyInt cnt, min_examples - cnt)])
    else
      planLoop concurrent_calls min_examples rest collect

/-- The augmentation planner run over the (year-filtered) corpus, given as the
list of the records' `meshMajor` label lists. -/
def augmentPlanner (meshMajors : List (List String)) (min_examples concurrent_calls : Nat) :
    PlanOutcome :=
  planLoop concurrent_calls min_examples
    (tagsToAugment (mergeDicts (meshMajors.map countElementsInSublist)) min_examples) []

/-!
Engine side: `AugmentOpenAI` (augment_openai.py). Only the `abstractText` and
`meshMajor` fields of the dataset records are read by `_make_requests`.
-/

/-- A dataset record as consumed by `_make_requests`. -/
structure SeedRecord where
  abstractText : String
  meshMajor : List String
deriving DecidableEq, Inhabited

/-- The value bound by `year = datetime.date.year` (augment_openai.py line 76):
`datetime.date` is the class, so this is the class attribute descriptor, not
an integer year (`datetime.date.today().year` would be one). -/
inductive PyYearValue where
  | intYear (m : Nat)
  | yearAttrDescriptor
deriving DecidableEq, Inhabited

/-- Value of `uuid.uuid4().hex`: a fresh random hex string; randomness is outside the
embedding, so the value is an opaque marker. -/
inductive PmidValue where
  | freshUuidHex
deriving DecidableEq, Inhabited

/-- Python exceptions raised by the embedded code paths. -/
inductive PyError where
  | zeroDivisionError
  | typeError
deriving DecidableEq

/-- Worker for `replaceAll`. Structural recursion on a fuel that decreases by
one per step; each step consumes at least one character of `s`, so
`fuel = s.length` never runs out (see `replaceAllAux_congr`). -/
def replaceAllAux (old new : List Char) : Nat → List Char → List Char
  | 0, s => s
  | fuel + 1, s =>
    match s with
    | [] => []
    | c :: rest =>
      if old ≠ [] ∧ old.isPrefixOf (c :: rest) then
        new ++ replaceAllAux old new fuel ((c :: rest).drop old.length)
      else
        c :: replaceAllAux old new fuel rest

/-- Python `s.replace(old, new)` for non-empty `old`: every occurrence is
replaced, scanning left to right, non-overlapping. -/
def replaceAll (s old new : List Char) : List Char :=
  replaceAllAux old new s.length s

/-- The literal `'\x7bTOPIC\x7d'` placeholder. -/
def topicPlaceholder : List Char := "{TOPIC}".data

/-- The literal `'\x7bABSTRACT\x7d'` placeholder. -/
def abstractPlaceholder : List Char := "{ABSTRACT}".data

/-- One element of the `messages` list sent to the chat endpoint. -/
structure ChatMessage where
  role : String
  content : List Char
deriving DecidableEq, Inhabited

/-- The engine state: the prompt template read at construction time and the
model key. -/
structure AugmentOpenAI where
  promptTemplate : List Char
  model_key : String
deriving DecidableEq, Inhabited

/-- Embedding of `_create_message(self, abstract, tag)` (augment_openai.py lines 25-29):
`prompt = self.prompt_template.replace('\x7bTOPIC\x7d', tag)` then
`prompt = prompt.replace('\x7bABSTRACT\x7d', abstract)`. -/
def createMessage (engine : AugmentOpenAI) (abstract : String) (tag : String) :
    List ChatMessage :=
  let prompt := replaceAll engine.promptTemplate topicPlaceholder tag.data
  let prompt2 := replaceAll prompt abstractPlaceholder abstract.data
  [{ role := "user", content := prompt2 }]

/-- The `metadata` dictionary attached to each outbound request
(augment_openai.py lines 104-112). -/
structure RequestMetadata where
  featured_tag : String
  tags : List String
  required_examples : Nat
  existing_example : String
  year : PyYearValue
  model_key : String
  save_to_path : String
deriving DecidableEq, Inhabited

/-- A Python float sampling parameter (`temperature`, `top_p`,
`presence_penalty`): carried verbatim into each request and never computed
with, so it is represented as an exact unnormalized fraction. -/
structure PyFloat where
  num : Int
  den : Nat
deriving DecidableEq, Inhabited

/-- The `data` dictionary of one outbound chat request together with its
metadata (augment_openai.py lines 96-112). -/
structure ApiRequest where
  model : String
  n : Nat
  temperature : PyFloat
  top_p : PyFloat
  presence_penalty : PyFloat
  messages : List ChatMessage
  metadata : RequestMetadata
deriving DecidableEq, Inhabited

/-- Exact value of Python `math.ceil(a / b)` for natural `a` and `b ≥ 1`. -/
def ceilNatDiv (a b : Nat) : Nat := (a + b - 1) / b

/-- One iteration of the `for num in range(len(collect_concurrent_calls))` loop
of `_make_requests` (augment_openai.py lines 81-114): filter the dataset to
records whose `meshMajor` holds the tag, set
`existing_examples = min(required_examples, len(tmp_dset))`, and if that is 0
the division `required_examples / existing_examples` raises
`ZeroDivisionError`; otherwise one request per used seed is pushed
(`for i in range(existing_examples)` indexes the first `existing_examples`
records of `tmp_dset`, i.e. `tmp_dset.take existing_examples`). -/
def makeRequestsEntry (engine : AugmentOpenAI) (t : String) (n : Nat)
    (dset : List SeedRecord) (temperature top_p presence_penalty : PyFloat)
    (model_key save_to_path : String) : List ApiRequest × Option PyError :=
  let tmp_dset := dset.filter (fun x => decide (t ∈ x.meshMajor))
  let required_examples := n
  let existing_examples := min required_examples tmp_dset.length
  if existing_examples = 0 then
    ([], some PyError.zeroDivisionError)
  else
    let n_per_example := ceilNatDiv required_examples existing_examples
    ((tmp_dset.take existing_examples).map (fun seed =>
      { model := engine.model_key,
        n := n_per_example,
        temperature := temperature,
        top_p := top_p,
        presence_penalty := presence_penalty,
        messages := createMessage engine seed.abstractText t,
        metadata := {
          featured_tag := t,
          tags := seed.meshMajor,
          required_examples := n,
          existing_example := seed.abstractText,
          year := PyYearValue.yearAttrDescriptor,
          model_key := model_key,
          save_to_path := save_to_path } }), none)

/-- Embedding of `_make_requests` over the whole `collect_concurrent_calls` plan. Requests
already pushed through `self.api.request` before an exception stay dispatched,
so the first component accumulates them; the second component records the
first uncaught exception (processing stops there, as in Python). -/
def makeRequests (engine : AugmentOpenAI) (collect_concurrent_calls : List (String × Nat))
    (dset : List SeedRecord) (temperature top_p presence_penalty : PyFloat)
    (model_key save_to_path : String) : List ApiRequest × Option PyError :=
  match collect_concurrent_calls with
  | [] => ([], none)
  | (t, mi) :: rest =>
    match makeRequestsEntry engine t mi dset temperature top_p presence_penalty
        model_key save_to_path with
    | (rs, some e) => (rs, some e)
    | (rs, none) =>
      match makeRequests engine rest dset temperature top_p presence_penalty
          model_key save_to_path with
      | (more, err2) => (rs ++ more, err2)

/-- A `\x7btitle, abstract\x7d` record successfully decoded from one LLM
completion choice. -/
structure ParsedJson where
  abstract : String
  title : String
deriving DecidableEq, Inhabited

/-- Modelled from the spec: `JsonParser.parse_json`
(grants_tagger_light/augmentation/JsonParser.py) is not under src/, so the
parser is modelled abstractly, faithful to section 4.3 of the spec: it maps
the raw text of one choice either to a structured record with both required
fields `abstract` and `title`, or to a parse failure (`none`) — per the spec,
output that does not decode to a JSON object holding both fields is a parse
failure, which `_process_response` catches, logs and skips. -/
def JsonParserModel : Type := String → Option ParsedJson

/-- The result object handed to the `_process_response` callback: the
backend-reported failure flag, the request metadata, and for each completion
choice the content `r['message']['content']` (or `none` when the choice lacks
a `message`/`content`, which the handler skips). -/
structure ApiResult where
  failed : Bool
  metadata : RequestMetadata
  choices : List (Option String)
deriving DecidableEq, Inhabited

/-- One line appended to the augmented dataset file
(augment_openai.py lines 50-62). -/
structure OutputRecord where
  journal : String
  meshMajor : List String
  year : PyYearValue
  abstractText : String
  pmid : PmidValue
  title : String
  existing_example : String
  required_examples : Nat
  featured_tag : String
deriving DecidableEq, Inhabited

/-- The record `_process_response` writes for one successfully parsed choice. -/
def mkOutputRecord (md : RequestMetadata) (pj : ParsedJson) : OutputRecord :=
  { journal := md.model_key,
    meshMajor := md.tags,
    year := md.year,
    abstractText := pj.abstract,
    pmid := PmidValue.freshUuidHex,
    title := pj.title,
    existing_example := md.existing_example,
    required_examples := md.required_examples,
    featured_tag := md.featured_tag }

/-- Handling of one choice inside the `for r in result.response['choices']`
loop: a missing `message`/`content` is skipped, a parse failure is logged and
skipped (`continue`), a success appends one record. -/
def processChoice (parse : JsonParserModel) (md : RequestMetadata)
    (acc : List OutputRecord) (choice : Option String) : List OutputRecord :=
  match choice with
  | none => acc
  | some content =>
    match parse content with
    | none => acc
    | some pj => acc ++ [mkOutputRecord md pj]

/-- Embedding of `_process_response(result)` (augment_openai.py lines 32-64), returning the
list of records appended to the output file, in order. A backend-reported
failure is logged and nothing is written. -/
def processResponse (parse : JsonParserModel) (result : ApiResult) : List OutputRecord :=
  if result.failed then []
  else result.choices.foldl (processChoice parse result.metadata) []

/-!
Python call-argument binding, used to settle how the driver's `_generate`
invokes `AugmentOpenAI.generate`.
-/

/-- A Python function signature: parameters without defaults, then parameters
with defaults (`self` excluded). -/
structure PySignature where
  required : List String
  optional : List String
deriving DecidableEq

/-- True iff binding `numPositional` positional arguments and the given
keyword arguments against `sig` raises `TypeError`: too many positionals, an
unexpected keyword, a keyword duplicating a positionally filled parameter, or
a required parameter left unfilled. -/
def pyCallRaisesTypeError (sig : PySignature) (numPositional : Nat)
    (keywords : List String) : Bool :=
  let params := sig.required ++ sig.optional
  let posFilled := params.take numPositional
  let filled := posFilled ++ keywords
  decide (params.length < numPositional)
    || keywords.any (fun kw => !(params.contains kw))
    || keywords.any (fun kw => posFilled.contains kw)
    || sig.required.any (fun p => !(filled.contains p))

/-- Signature of `AugmentOpenAI.generate(self, collect_concurrent_calls, dset,
save_to_path, model_key, temperature=1.5, top_p=1, presence_penalty=0,
num_proc=os.cpu_count())` (augment_openai.py lines 116-117). -/
def generateSig : PySignature :=
  { required := ["collect_concurrent_calls", "dset", "save_to_path", "model_key"],
    optional := ["temperature", "top_p", "presence_penalty", "num_proc"] }

/-- The driver's call `augmentation_engine.generate(collect_concurrent_calls,
dset, few_shot_examples=few_shot_examples)` (augment.py line 45): two
positional arguments and the keyword `few_shot_examples`. If binding fails no
request is dispatched — the body of `generate` never runs. -/
def driverGenerateDispatch : Except PyError Unit :=
  if pyCallRaisesTypeError generateSig 2 ["few_shot_examples"] then
    Except.error PyError.typeError
  else
    Except.ok ()

/-!
Concrete inputs used by the witnesses: the end-to-end scenario of spec
section 8 (label Malaria, three seed records, deficit 12).
-/

def c2engine : AugmentOpenAI :=
  { promptTemplate := "Write an abstract about {TOPIC} similar to {ABSTRACT}".data,
    model_key := "gpt-3.5-turbo" }

def c2dset : List SeedRecord :=
  [{ abstractText := "malaria abstract one", meshMajor := ["Malaria", "Global Health"] },
   { abstractText := "tb abstract", meshMajor := ["Tuberculosis"] },
   { abstractText := "malaria abstract two", meshMajor := ["Malaria"] },
   { abstractText := "malaria abstract three", meshMajor := ["Malaria", "Plasmodium"] }]

def c2result : List ApiRequest × Option PyError :=
  makeRequests c2engine [("Malaria", 12)] c2dset (PyFloat.mk 3 2) (PyFloat.mk 1 1)
    (PyFloat.mk 0 1) "gpt-3.5-turbo" "augmented.jsonl"

/-- A parser instance that always succeeds, standing for a well-formed LLM
reply. -/
def c6parse : JsonParserModel :=
  fun _ => some { abstract := "generated abstract", title := "generated title" }

def c6req : ApiRequest := c2result.1.headI

def c8records : List OutputRecord :=
  processResponse c6parse
    { failed := false, metadata := c6req.metadata, choices := [some "raw model output"] }

def c6rec : OutputRecord := c8records.headI

def c5metadata : RequestMetadata :=
  { featured_tag := "Malaria",
    tags := ["Malaria"],
    required_examples := 3,
    existing_example := "seed",
    year := PyYearValue.yearAttrDescriptor,
    model_key := "gpt-3.5-turbo",
    save_to_path := "augmented.jsonl" }

def c3shards : List (List (List String)) :=
  [[["Malaria", "Tuberculosis"]], [["Malaria"], ["Tuberculosis", "HIV"]]]

def c3corpus : List (List String) :=
  [["Malaria"], ["Malaria", "Tuberculosis"], ["Tuberculosis", "HIV"]]

/-- The record `_process_response` writes in the scenario above, spelled out. -/
def c8expected : OutputRecord :=
  { journal := "gpt-3.5-turbo",
    meshMajor := ["Malaria", "Global Health"],
    year := PyYearValue.yearAttrDescriptor,
    abstractText := "generated abstract",
    pmid := PmidValue.freshUuidHex,
    title := "generated title",
    existing_example := "malaria abstract one",
    required_examples := 12,
    featured_tag := "Malaria" }

def c7template : List Char := "{TOPIC}, {TOPIC}, {ABSTRACT}".data

def c7engine : AugmentOpenAI :=
  { promptTemplate := c7template, model_key := "gpt-3.5-turbo" }

theorem dictGet_dictSet_self (d : List (String × Nat)) (k : String) (v : Nat) :
    dictGet (dictSet d k v) k = some v := by
  induction d with
  | nil => simp [dictGet, dictSet]
  | cons kv rest ih =>
    by_cases h : kv.1 = k
    · simp [dictGet, dictSet, h]
    · simp [dictGet, dictSet, h, ih]

theorem dictGet_dictSet_ne (d : List (String × Nat)) {k k1 : String} (v : Nat)
    (h : k1 ≠ k) : dictGet (dictSet d k v) k1 = dictGet d k1 := by
  induction d with
  | nil => simp [dictGet, dictSet, Ne.symm h]
  | cons kv rest ih =>
    by_cases hk : kv.1 = k
    · subst hk
      simp [dictGet, dictSet, Ne.symm h]
    · simp only [dictGet, dictSet, if_neg hk]
      by_cases hk1 : kv.1 = k1 <;> simp [dictGet, hk1, ih]

theorem getCount_dictSet_self (d : List (String × Nat)) (k : String) (v : Nat) :
    getCount (dictSet d k v) k = v := by
  simp [getCount, dictGet_dictSet_self]

theorem getCount_dictSet_ne (d : List (String × Nat)) {k k1 : String} (v : Nat)
    (h : k1 ≠ k) : getCount (dictSet d k v) k1 = getCount d k1 := by
  simp [getCount, dictGet_dictSet_ne d v h]

theorem entrySum_dictSet_ne (d : List (String × Nat)) {k k1 : String} (v : Nat)
    (h : k1 ≠ k) : entrySum (dictSet d k v) k1 = entrySum d k1 := by
  induction d with
  | nil => simp [entrySum, dictSet, Ne.symm h]
  | cons kv rest ih =>
    by_cases hk : kv.1 = k
    · subst hk
      simp [entrySum, dictSet, Ne.symm h]
    · simp [entrySum, dictSet, hk, ih]

theorem entrySum_dictSet_found (d : List (String × Nat)) {k : String} {c : Nat} (v : Nat)
    (h : dictGet d k = some c) : entrySum (dictSet d k v) k + c = entrySum d k + v := by
  induction d with
  | nil => simp [dictGet] at h
  | cons kv rest ih =>
    by_cases hk : kv.1 = k
    · subst hk
      simp [dictGet] at h
      subst h
      simp [entrySum, dictSet]
      omega
    · simp [dictGet, hk] at h
      simp [entrySum, dictSet, hk]
      have := ih h
      omega

theorem entrySum_dictSet_new (d : List (String × Nat)) {k : String} (v : Nat)
    (h : dictGet d k = none) : entrySum (dictSet d k v) k = entrySum d k + v := by
  induction d with
  | nil => simp [entrySum, dictSet]
  | cons kv rest ih =>
    by_cases hk : kv.1 = k
    · simp [dictGet, hk] at h
    · simp [dictGet, hk] at h
      simp [entrySum, dictSet, hk, ih h]

theorem entrySum_countStep (acc : List (String × Nat)) (e k : String) :
    entrySum (countStep acc e) k = entrySum acc k + (if e = k then 1 else 0) := by
  unfold countStep
  cases h : dictGet acc e with
  | some c =>
    by_cases hk : e = k
    · subst hk
      have h2 := entrySum_dictSet_found acc (c + 1) h
      simp
      omega
    · simp [entrySum_dictSet_ne acc _ (Ne.symm hk), hk]
  | none =>
    by_cases hk : e = k
    · subst hk
      simp [entrySum_dictSet_new acc _ h]
    · simp [entrySum_dictSet_ne acc _ (Ne.symm hk), hk]

theorem getCount_countStep (acc : List (String × Nat)) (e k : String) :
    getCount (countStep acc e) k = getCount acc k + (if e = k then 1 else 0) := by
  unfold countStep
  cases h : dictGet acc e with
  | some c =>
    by_cases hk : e = k
    · subst hk
      simp [getCount, dictGet_dictSet_self, h]
    · simp [getCount_dictSet_ne acc _ (Ne.symm hk), hk]
  | none =>
    by_cases hk : e = k
    · subst hk
      simp [getCount, dictGet_dictSet_self, h]
    · simp [getCount_dictSet_ne acc _ (Ne.symm hk), hk]

theorem entrySum_countFold (l : List String) (k : String) :
    ∀ acc, entrySum (l.foldl countStep acc) k = entrySum acc k + countOcc k l := by
  induction l with
  | nil => intro acc; simp [countOcc]
  | cons x xs ih =>
    intro acc
    simp only [List.foldl_cons, countOcc]
    rw [ih, entrySum_countStep]
    omega

theorem getCount_countFold (l : List String) (k : String) :
    ∀ acc, getCount (l.foldl countStep acc) k = getCount acc k + countOcc k l := by
  induction l with
  | nil => intro acc; simp [countOcc]
  | cons x xs ih =>
    intro acc
    simp only [List.foldl_cons, countOcc]
    rw [ih, getCount_countStep]
    omega

theorem entrySum_countElementsInSublist (l : List String) (k : String) :
    entrySum (countElementsInSublist l) k = countOcc k l := by
  unfold countElementsInSublist
  rw [entrySum_countFold]
  simp [entrySum]

theorem getCount_countElementsInSublist (l : List String) (k : String) :
    getCount (countElementsInSublist l) k = countOcc k l := by
  unfold countElementsInSublist
  rw [getCount_countFold]
  simp [getCount, dictGet]

theorem getCount_mergeStep (m : List (String × Nat)) (kv : String × Nat) (k : String) :
    getCount (mergeStep m kv) k = getCount m k + (if kv.1 = k then kv.2 else 0) := by
  unfold mergeStep
  cases h : dictGet m kv.1 with
  | some c =>
    by_cases hk : kv.1 = k
    · subst hk
      simp [getCount, dictGet_dictSet_self, h]
    · simp [getCount_dictSet_ne m _ (Ne.symm hk), hk]
  | none =>
    by_cases hk : kv.1 = k
    · subst hk
      simp [getCount, dictGet_dictSet_self, h]
    · simp [getCount_dictSet_ne m _ (Ne.symm hk), hk]

theorem entrySum_mergeStep (m : List (String × Nat)) (kv : String × Nat) (k : String) :
    entrySum (mergeStep m kv) k = entrySum m k + (if kv.1 = k then kv.2 else 0) := by
  unfold mergeStep
  cases h : dictGet m kv.1 with
  | some c =>
    by_cases hk : kv.1 = k
    · subst hk
      have h2 := entrySum_dictSet_found m (c + kv.2) h
      simp
      omega
    · simp [entrySum_dictSet_ne m _ (Ne.symm hk), hk]
  | none =>
    by_cases hk : kv.1 = k
    · subst hk
      simp [entrySum_dictSet_new m _ h]
    · simp [entrySum_dictSet_ne m _ (Ne.symm hk), hk]

theorem getCount_mergeFold (d : List (String × Nat)) (k : String) :
    ∀ m, getCount (d.foldl mergeStep m) k = getCount m k + entrySum d k := by
  induction d with
  | nil => intro m; simp [entrySum]
  | cons kv rest ih =>
    intro m
    simp only [List.foldl_cons, entrySum]
    rw [ih, getCount_mergeStep]
    omega

theorem entrySum_mergeFold (d : List (String × Nat)) (k : String) :
    ∀ m, entrySum (d.foldl mergeStep m) k = entrySum m k + entrySum d k := by
  induction d with
  | nil => intro m; simp [entrySum]
  | cons kv rest ih =>
    intro m
    simp only [List.foldl_cons, entrySum]
    rw [ih, entrySum_mergeStep]
    omega

theorem getCount_mergeDicts (ds : List (List (String × Nat))) (k : String) :
    getCount (mergeDicts ds) k = (ds.map (fun d => entrySum d k)).sum := by
  unfold mergeDicts
  have general : ∀ (ds : List (List (String × Nat))) (m : List (String × Nat)),
      getCount (ds.foldl (fun merged d => d.foldl mergeStep merged) m) k
        = getCount m k + (ds.map (fun d => entrySum d k)).sum := by
    intro ds
    induction ds with
    | nil => intro m; simp
    | cons d rest ih =>
      intro m
      simp only [List.foldl_cons, List.map_cons, List.sum_cons]
      rw [ih, getCount_mergeFold]
      omega
  rw [general]
  simp [getCount, dictGet]

theorem entrySum_mergeDicts (ds : List (List (String × Nat))) (k : String) :
    entrySum (mergeDicts ds) k = (ds.map (fun d => entrySum d k)).sum := by
  unfold mergeDicts
  have general : ∀ (ds : List (List (String × Nat))) (m : List (String × Nat)),
      entrySum (ds.foldl (fun merged d => d.foldl mergeStep merged) m) k
        = entrySum m k + (ds.map (fun d => entrySum d k)).sum := by
    intro ds
    induction ds with
    | nil => intro m; simp
    | cons d rest ih =>
      intro m
      simp only [List.foldl_cons, List.map_cons, List.sum_cons]
      rw [ih, entrySum_mergeFold]
      omega
  rw [general]
  simp [entrySum]

theorem countOcc_append (k : String) (l1 l2 : List String) :
    countOcc k (l1 ++ l2) = countOcc k l1 + countOcc k l2 := by
  induction l1 with
  | nil => simp [countOcc]
  | cons x xs ih =>
    show (if x = k then 1 else 0) + countOcc k (xs ++ l2)
      = ((if x = k then 1 else 0) + countOcc k xs) + countOcc k l2
    rw [ih]
    omega

theorem countOcc_join (k : String) (L : List (List String)) :
    countOcc k L.flatten = (L.map (countOcc k)).sum := by
  induction L with
  | nil => simp [countOcc]
  | cons l ls ih =>
    simp only [List.flatten_cons, List.map_cons, List.sum_cons, countOcc_append, ih]

/-- Per-shard table read back as a mapping: counting a shard with the repo's
counter and merging gives the per-label occurrence sum of the shard. -/
theorem entrySum_shard_table (shard : List (List String)) (k : String) :
    entrySum (mergeDicts (shard.map countElementsInSublist)) k = countOcc k shard.flatten := by
  rw [entrySum_mergeDicts, List.map_map, countOcc_join]
  congr 1
  apply List.map_congr_left
  intro rec _
  simp [Function.comp, entrySum_countElementsInSublist]

/-- C3: for every partition of the corpus records into shards (in any shard
order, hence any merge order), counting label occurrences per shard with
`_count_elements_in_sublist` and merging the shard tables with `_merge_dicts`
yields, label by label, the same frequency table as counting the whole corpus
directly. -/
theorem count_merge_matches_direct_count (shards : List (List (List String)))
    (corpus : List (List String)) (h : shards.flatten.Perm corpus) (k : String) :
    getCount (mergeDicts (shards.map
        (fun shard => mergeDicts (shard.map countElementsInSublist)))) k
      = getCount (countElementsInSublist corpus.flatten) k := by
  rw [getCount_mergeDicts, getCount_countElementsInSublist, countOcc_join, List.map_map]
  have hstep : shards.map ((fun d => entrySum d k) ∘
      (fun shard => mergeDicts (shard.map countElementsInSublist)))
      = shards.map (fun shard => countOcc k shard.flatten) := by
    apply List.map_congr_left
    intro shard _
    simp [Function.comp, entrySum_shard_table]
  rw [hstep, ← List.Perm.sum_eq (h.map (countOcc k)), List.map_flatten, List.sum_flatten,
    List.map_map]
  congr 1
  apply List.map_congr_left
  intro shard _
  simp [Function.comp, countOcc_join]

/-- Witness for C3 at a concrete two-shard partition of a three-record corpus. -/
theorem count_merge_matches_direct_count_witness :
    getCount (mergeDicts (c3shards.map
        (fun shard => mergeDicts (shard.map countElementsInSublist)))) "Tuberculosis"
      = getCount (countElementsInSublist c3corpus.flatten) "Tuberculosis" :=
  count_merge_matches_direct_count c3shards c3corpus (by decide) "Tuberculosis"

/-- C1 (code bug): on a corpus with one record labelled "A" (count 1 below the
threshold 15, concurrent ceiling 5) the planner finishes without ever handing
a plan to the generation step, and the one buffered entry is
`(count, deficit) = (1, 14)` — the label string "A" never enters the plan. -/
theorem augment_planner_drops_deficit_label :
    augmentPlanner [["A"]] 15 5 = PlanOutcome.finished [(PlanItem.pyInt 1, 14)] := by
  decide

/-- C9: the driver's `_generate` calls `generate` with two positional
arguments and the unexpected keyword `few_shot_examples`, leaving the required
`save_to_path` and `model_key` unfilled; Python argument binding raises
`TypeError`, so the dispatch errors and no generation request is issued
through the driver. -/
theorem driver_generate_call_type_error :
    pyCallRaisesTypeError generateSig 2 ["few_shot_examples"] = true ∧
      driverGenerateDispatch = Except.error PyError.typeError := by
  constructor
  · decide
  · rfl

/-- C10: a plan entry whose tag occurs in no record of the dataset filters to
an empty `tmp_dset`, so `existing_examples = min(n, 0) = 0` and the per-seed
replication division raises an unhandled `ZeroDivisionError`; no request is
issued for the entry. -/
theorem missing_tag_zero_division (engine : AugmentOpenAI) (t : String) (n : Nat)
    (dset : List SeedRecord) (temperature top_p presence_penalty : PyFloat)
    (model_key save_to_path : String) (h : ∀ r ∈ dset, t ∉ r.meshMajor) :
    makeRequests engine [(t, n)] dset temperature top_p presence_penalty
        model_key save_to_path
      = ([], some PyError.zeroDivisionError) := by
  have hf : dset.filter (fun x => decide (t ∈ x.meshMajor)) = [] := by
    rw [List.filter_eq_nil_iff]
    intro r hr
    simp [h r hr]
  simp [makeRequests, makeRequestsEntry, hf]

/-- Witness for C10: no record of the scenario dataset carries "Leprosy". -/
theorem missing_tag_zero_division_witness :
    makeRequests c2engine [("Leprosy", 7)] c2dset (PyFloat.mk 3 2)
        (PyFloat.mk 1 1) (PyFloat.mk 0 1) "gpt-3.5-turbo" "augmented.jsonl"
      = ([], some PyError.zeroDivisionError) :=
  missing_tag_zero_division c2engine "Leprosy" 7 c2dset (PyFloat.mk 3 2)
    (PyFloat.mk 1 1) (PyFloat.mk 0 1) "gpt-3.5-turbo" "augmented.jsonl" (by decide)

/-- C5: a completion choice whose content fails to parse into a record with
both required fields contributes no output record, and the handler keeps
processing the surrounding choices: the appended records are exactly those of
the run without that choice, so the run does not halt on the failure. -/
theorem parse_failure_skips_choice (parse : JsonParserModel) (md : RequestMetadata)
    (pre post : List (Option String)) (s : String) (h : parse s = none) :
    processResponse parse { failed := false, metadata := md, choices := pre ++ some s :: post }
      = processResponse parse { failed := false, metadata := md, choices := pre ++ post } := by
  simp only [processResponse, Bool.false_eq_true, if_false]
  rw [show pre ++ some s :: post = (pre ++ [some s]) ++ post by simp,
    List.foldl_append, List.foldl_append, List.foldl_append]
  congr 1
  simp [processChoice, h]

/-- Witness for C5: one failing choice between two succeeding ones. -/
theorem parse_failure_skips_choice_witness :
    processResponse (fun c => if c = "bad" then none else some { abstract := "a", title := "t" })
        { failed := false, metadata := c5metadata,
          choices := [some "good one"] ++ some "bad" :: [some "good two"] }
      = processResponse (fun c => if c = "bad" then none else some { abstract := "a", title := "t" })
        { failed := false, metadata := c5metadata,
          choices := [some "good one"] ++ [some "good two"] } :=
  parse_failure_skips_choice
    (fun c => if c = "bad" then none else some { abstract := "a", title := "t" })
    c5metadata [some "good one"] [some "good two"] "bad" (by simp)

/-- Bound `math.ceil(a / b) * b >= a` for `b >= 1`. -/
theorem ceilNatDiv_mul_ge (a b : Nat) (hb : 1 ≤ b) : a ≤ ceilNatDiv a b * b := by
  unfold ceilNatDiv
  have h1 := Nat.div_add_mod (a + b - 1) b
  have h2 : (a + b - 1) % b < b := Nat.mod_lt _ (by omega)
  rw [Nat.mul_comm]
  omega

/-- C2: for a plan entry with deficit `n >= 1` (every deficit the planner
produces is at least 1) and at least one seed record carrying the tag, the
requests built use `min(n, availableSeeds)` seeds, each asks for
`ceil(n / seedsUsed)` generations, and hence
`replicationFactor * seedsUsed >= n`. -/
theorem replication_factor_bound (engine : AugmentOpenAI) (t : String) (n : Nat)
    (dset : List SeedRecord) (temperature top_p presence_penalty : PyFloat)
    (model_key save_to_path : String) (hn : 1 ≤ n)
    (hav : 1 ≤ (dset.filter (fun x => decide (t ∈ x.meshMajor))).length)
    (reqs : List ApiRequest)
    (hreqs : makeRequests engine [(t, n)] dset temperature top_p presence_penalty
        model_key save_to_path = (reqs, none)) :
    reqs.length = min n (dset.filter (fun x => decide (t ∈ x.meshMajor))).length ∧
      (∀ req ∈ reqs, req.n = ceilNatDiv n reqs.length) ∧
      (∀ req ∈ reqs, n ≤ req.n * reqs.length) := by
  have he : ¬ (min n (dset.filter (fun x => decide (t ∈ x.meshMajor))).length = 0) := by
    omega
  simp only [makeRequests, makeRequestsEntry, if_neg he, List.append_nil, Prod.mk.injEq] at hreqs
  obtain ⟨hre, -⟩ := hreqs
  subst hre
  have hlen : ((((dset.filter (fun x => decide (t ∈ x.meshMajor))).take
        (min n (dset.filter (fun x => decide (t ∈ x.meshMajor))).length))).length)
      = min n (dset.filter (fun x => decide (t ∈ x.meshMajor))).length := by
    rw [List.length_take]
    omega
  refine ⟨by rw [List.length_map]; exact hlen, ?_, ?_⟩
  · intro req hreq
    rcases List.mem_map.mp hreq with ⟨seed, hseed, rfl⟩
    simp [hlen]
  · intro req hreq
    rcases List.mem_map.mp hreq with ⟨seed, hseed, rfl⟩
    simp [hlen]
    exact ceilNatDiv_mul_ge n _ (by omega)

/-- Witness for C2 at the spec section 8 scenario: deficit 12, three seed
records carrying "Malaria", so 3 seeds and replication factor 4. -/
theorem replication_factor_bound_witness :
    c2result.1.length = min 12 ((c2dset.filter
        (fun x => decide ("Malaria" ∈ x.meshMajor))).length) ∧
      (∀ req ∈ c2result.1, req.n = ceilNatDiv 12 c2result.1.length) ∧
      (∀ req ∈ c2result.1, 12 ≤ req.n * c2result.1.length) :=
  replication_factor_bound c2engine "Malaria" 12 c2dset (PyFloat.mk 3 2)
    (PyFloat.mk 1 1) (PyFloat.mk 0 1) "gpt-3.5-turbo" "augmented.jsonl"
    (by decide) (by decide) c2result.1 rfl

/-- Every request built by one plan entry features a tag carried by its seed
record's `meshMajor` (the seed comes from the dataset filtered to that tag). -/
theorem makeRequestsEntry_featured (engine : AugmentOpenAI) (t : String) (n : Nat)
    (dset : List SeedRecord) (temperature top_p presence_penalty : PyFloat)
    (model_key save_to_path : String) :
    ∀ req ∈ (makeRequestsEntry engine t n dset temperature top_p presence_penalty
        model_key save_to_path).1,
      req.metadata.featured_tag ∈ req.metadata.tags := by
  intro req hreq
  rw [makeRequestsEntry] at hreq
  by_cases he : min n (dset.filter (fun x => decide (t ∈ x.meshMajor))).length = 0
  · rw [if_pos he] at hreq
    simp at hreq
  · rw [if_neg he] at hreq
    rcases List.mem_map.mp hreq with ⟨seed, hseed, rfl⟩
    have hseed2 : seed ∈ dset.filter (fun x => decide (t ∈ x.meshMajor)) :=
      List.take_subset _ _ hseed
    have hmem := List.of_mem_filter hseed2
    simpa using hmem

/-- Every request built by `_make_requests` features a tag carried by its
seed record's `meshMajor`. -/
theorem makeRequests_featured (engine : AugmentOpenAI)
    (collect_concurrent_calls : List (String × Nat)) (dset : List SeedRecord)
    (temperature top_p presence_penalty : PyFloat) (model_key save_to_path : String) :
    ∀ req ∈ (makeRequests engine collect_concurrent_calls dset temperature top_p
        presence_penalty model_key save_to_path).1,
      req.metadata.featured_tag ∈ req.metadata.tags := by
  induction collect_concurrent_calls with
  | nil =>
    intro req hreq
    simp [makeRequests] at hreq
  | cons entry rest ih =>
    intro req hreq
    obtain ⟨t, mi⟩ := entry
    simp only [makeRequests] at hreq
    rcases hE : makeRequestsEntry engine t mi dset temperature top_p presence_penalty
        model_key save_to_path with ⟨rs, err⟩
    rw [hE] at hreq
    cases err with
    | some e =>
      exact makeRequestsEntry_featured engine t mi dset temperature top_p
        presence_penalty model_key save_to_path req (by rw [hE]; exact hreq)
    | none =>
      rcases hM : makeRequests engine rest dset temperature top_p presence_penalty
          model_key save_to_path with ⟨more, err2⟩
      rw [hM] at hreq
      rcases List.mem_append.mp hreq with h1 | h2
      · exact makeRequestsEntry_featured engine t mi dset temperature top_p
          presence_penalty model_key save_to_path req (by rw [hE]; exact h1)
      · exact ih req (by rw [hM]; exact h2)

/-- Every record the completion handler appends copies `meshMajor` and
`featured_tag` from the call metadata. -/
theorem processResponse_mem_shape (parse : JsonParserModel) (result : ApiResult)
    (rec : OutputRecord) (hrec : rec ∈ processResponse parse result) :
    rec.meshMajor = result.metadata.tags ∧
      rec.featured_tag = result.metadata.featured_tag := by
  unfold processResponse at hrec
  by_cases hf : result.failed
  · simp [hf] at hrec
  · simp only [hf, Bool.false_eq_true, if_false] at hrec
    have general : ∀ (choices : List (Option String)) (acc : List OutputRecord),
        (∀ r ∈ acc, r.meshMajor = result.metadata.tags ∧
          r.featured_tag = result.metadata.featured_tag) →
        ∀ r ∈ choices.foldl (processChoice parse result.metadata) acc,
          r.meshMajor = result.metadata.tags ∧
            r.featured_tag = result.metadata.featured_tag := by
      intro choices
      induction choices with
      | nil => intro acc hacc r hr; exact hacc r hr
      | cons c cs ihc =>
        intro acc hacc r hr
        simp only [List.foldl_cons] at hr
        refine ihc _ ?_ r hr
        intro r2 hr2
        cases c with
        | none =>
          simp only [processChoice] at hr2
          exact hacc r2 hr2
        | some content =>
          cases hp : parse content with
          | none =>
            simp only [processChoice, hp] at hr2
            exact hacc r2 hr2
          | some pj =>
            simp only [processChoice, hp] at hr2
            rcases List.mem_append.mp hr2 with h1 | h2
            · exact hacc r2 h1
            · simp only [List.mem_singleton] at h2
              subst h2
              exact ⟨rfl, rfl⟩
    exact general result.choices [] (by simp) rec hrec

/-- C6: every output record appended by the completion handler for a request
that `_make_requests` built carries the featured tag inside its `meshMajor`
list (the seed was drawn from the dataset filtered to that tag and the
record's `meshMajor` is copied from the seed). -/
theorem output_record_contains_featured_tag (engine : AugmentOpenAI)
    (collect_concurrent_calls : List (String × Nat)) (dset : List SeedRecord)
    (temperature top_p presence_penalty : PyFloat) (model_key save_to_path : String)
    (req : ApiRequest)
    (hreq : req ∈ (makeRequests engine collect_concurrent_calls dset temperature
        top_p presence_penalty model_key save_to_path).1)
    (parse : JsonParserModel) (choices : List (Option String)) (rec : OutputRecord)
    (hrec : rec ∈ processResponse parse
        { failed := false, metadata := req.metadata, choices := choices }) :
    rec.featured_tag ∈ rec.meshMajor := by
  have h1 := makeRequests_featured engine collect_concurrent_calls dset temperature
    top_p presence_penalty model_key save_to_path req hreq
  have h2 := processResponse_mem_shape parse _ rec hrec
  rw [h2.1, h2.2]
  exact h1

/-- Witness for C6: the first Malaria request of the scenario, one parsed
choice. -/
theorem output_record_contains_featured_tag_witness :
    c6rec.featured_tag ∈ c6rec.meshMajor :=
  output_record_contains_featured_tag c2engine [("Malaria", 12)] c2dset
    (PyFloat.mk 3 2) (PyFloat.mk 1 1) (PyFloat.mk 0 1) "gpt-3.5-turbo"
    "augmented.jsonl" c6req (by decide) c6parse
    [some "raw model output"] c6rec (by decide)

/-- C8 (code bug): the record appended for a successfully parsed choice has
every Corpus Record field plus the three provenance fields, but its `year` is
the class attribute descriptor `datetime.date.year` (the `.today()` call is
missing), not an integer. -/
theorem output_year_is_class_attribute :
    c8records = [c8expected] ∧
      ∀ rec ∈ c8records, rec.year = PyYearValue.yearAttrDescriptor := by
  constructor
  · decide
  · decide

/-- The fuel of `replaceAllAux` is irrelevant as long as it is at least the
length of the scanned list. -/
theorem replaceAllAux_congr (old new : List Char) (hold : old ≠ []) :
    ∀ (f1 : Nat) (s : List Char) (f2 : Nat), s.length ≤ f1 → s.length ≤ f2 →
      replaceAllAux old new f1 s = replaceAllAux old new f2 s := by
  intro f1
  induction f1 with
  | zero =>
    intro s f2 h1 h2
    have hs : s = [] := List.length_eq_zero.mp (Nat.le_zero.mp h1)
    subst hs
    cases f2 <;> rfl
  | succ g ih =>
    intro s f2 h1 h2
    cases s with
    | nil => cases f2 <;> rfl
    | cons c rest =>
      cases f2 with
      | zero =>
        simp only [List.length_cons] at h2
        exact absurd h2 (by omega)
      | succ g2 =>
        have holdlen : 1 ≤ old.length := by
          cases old
          · exact absurd rfl hold
          · simp
        simp only [List.length_cons] at h1 h2
        simp only [replaceAllAux]
        by_cases hb : old ≠ [] ∧ old.isPrefixOf (c :: rest) = true
        · rw [if_pos hb, if_pos hb]
          congr 1
          apply ih
          · simp only [List.length_drop, List.length_cons]
            omega
          · simp only [List.length_drop, List.length_cons]
            omega
        · rw [if_neg hb, if_neg hb]
          congr 1
          apply ih
          · omega
          · omega

theorem replaceAll_nil (old new : List Char) : replaceAll [] old new = [] := rfl

/-- A list is a `isPrefixOf` of itself followed by anything. -/
theorem isPrefixOf_append_self (l r : List Char) : l.isPrefixOf (l ++ r) = true := by
  induction l with
  | nil => simp [List.isPrefixOf]
  | cons a as ih => simp [List.isPrefixOf, ih]

/-- Python `str.replace` consumes a leading occurrence of `old`, emits `new`, and
then continues after it (non-overlapping, left to right). -/
theorem replaceAll_head_match (old new rest : List Char) (hold : old ≠ []) :
    replaceAll (old ++ rest) old new = new ++ replaceAll rest old new := by
  cases old with
  | nil => exact absurd rfl hold
  | cons o os =>
    show replaceAllAux (o :: os) new ((o :: os) ++ rest).length ((o :: os) ++ rest)
        = new ++ replaceAllAux (o :: os) new rest.length rest
    have hlen : ((o :: os) ++ rest).length = (os ++ rest).length + 1 := by
      simp
    rw [hlen]
    show replaceAllAux (o :: os) new ((os ++ rest).length + 1) (o :: (os ++ rest))
        = new ++ replaceAllAux (o :: os) new rest.length rest
    have hc : (o :: os) ≠ [] ∧ (o :: os).isPrefixOf (o :: (os ++ rest)) = true := by
      refine ⟨by simp, ?_⟩
      exact isPrefixOf_append_self (o :: os) rest
    simp only [replaceAllAux]
    rw [if_pos hc]
    congr 1
    have hdrop : (o :: (os ++ rest)).drop (o :: os).length = rest := by
      show ((o :: os) ++ rest).drop (o :: os).length = rest
      exact List.drop_left _ _
    rw [hdrop]
    apply replaceAllAux_congr _ _ hold
    · simp
    · simp

/-- When `old` does not start here, `str.replace` copies the character and
continues. -/
theorem replaceAll_head_skip (old new : List Char) (c : Char) (rest : List Char)
    (h : old.isPrefixOf (c :: rest) = false) :
    replaceAll (c :: rest) old new = c :: replaceAll rest old new := by
  show replaceAllAux old new (rest.length + 1) (c :: rest)
      = c :: replaceAllAux old new rest.length rest
  simp only [replaceAllAux]
  rw [if_neg]
  · rintro ⟨h1, h2⟩
    rw [h] at h2
    exact Bool.noConfusion h2

/-- A block free of the first character of `old` is copied unchanged. -/
theorem replaceAll_skip_chunk (o : Char) (os new s1 s2 : List Char)
    (h : ∀ c ∈ s1, c ≠ o) :
    replaceAll (s1 ++ s2) (o :: os) new = s1 ++ replaceAll s2 (o :: os) new := by
  induction s1 with
  | nil => simp
  | cons c s1x ih =>
    have hc : c ≠ o := h c (by simp)
    have hpf : (o :: os).isPrefixOf (c :: (s1x ++ s2)) = false := by
      have hoc : (o == c) = false := beq_eq_false_iff_ne.mpr (Ne.symm hc)
      simp [List.isPrefixOf, hoc]
    rw [List.cons_append, replaceAll_head_skip _ _ _ _ hpf,
      ih (fun d hd => h d (List.mem_cons_of_mem _ hd))]
    rfl

/-- Replacing a string by exactly itself yields the replacement. -/
theorem replaceAll_self (old new : List Char) (hold : old ≠ []) :
    replaceAll old old new = new := by
  have h := replaceAll_head_match old new [] hold
  simpa [replaceAll_nil] using h

/-- C7 (counterexample to last-occurrence-wins): on a template where TOPIC
occurs twice, rendering with tag "X" and abstract "A" yields "X, X, A" — both
occurrences substituted — and not "X7bTOPICX7d, X, A" as substituting only the
last occurrence would give. -/
theorem prompt_last_occurrence_counterexample :
    createMessage c7engine "A" "X" = [⟨"user", "X, X, A".data⟩] ∧
      "X, X, A".data ≠ "{TOPIC}, X, A".data := by
  constructor
  · decide
  · decide

/-- C7 (amended): `_create_message` substitutes the placeholders by literal
substring replacement with no escaping, replacing every occurrence (Python
`str.replace`, left to right), the TOPIC pass running before the ABSTRACT
pass; here shown on a template with two TOPIC occurrences, for any tag free
of the opening-brace character (so the second pass cannot match inside the
inserted tag). -/
theorem prompt_substitutes_every_occurrence (tag abstract : String)
    (h : ∀ c ∈ tag.data, c ≠ '\x7b') :
    createMessage c7engine abstract tag
      = [⟨"user", tag.data ++ ", ".data ++ tag.data ++ ", ".data ++ abstract.data⟩] := by
  have habs : abstractPlaceholder = '\x7b' :: "ABSTRACT\x7d".data := by decide
  have step1 : replaceAll c7engine.promptTemplate topicPlaceholder tag.data
      = tag.data ++ (", ".data ++ (tag.data ++ (", ".data ++ abstractPlaceholder))) := by
    rfl
  simp only [createMessage]
  rw [step1, habs]
  rw [replaceAll_skip_chunk '\x7b' "ABSTRACT\x7d".data abstract.data tag.data _ h]
  rw [replaceAll_skip_chunk '\x7b' "ABSTRACT\x7d".data abstract.data ", ".data _ (by decide)]
  rw [replaceAll_skip_chunk '\x7b' "ABSTRACT\x7d".data abstract.data tag.data _ h]
  rw [replaceAll_skip_chunk '\x7b' "ABSTRACT\x7d".data abstract.data ", ".data _ (by decide)]
  rw [replaceAll_self _ _ (by simp)]
  simp [List.append_assoc]

/-- Witness for C7 on the tag "Malaria". -/
theorem prompt_substitutes_every_occurrence_witness :
    createMessage c7engine "Plasmodium falciparum" "Malaria"
      = [⟨"user", "Malaria".data ++ ", ".data ++ "Malaria".data ++ ", ".data
          ++ "Plasmodium falciparum".data⟩] :=
  prompt_substitutes_every_occurrence "Malaria" "Plasmodium falciparum" (by decide)
